import Mathlib

/-!
Shallow embedding of the surgeryBox firmware core: the event sequencer
(`eventsInit` / `startEventSequence` / `processEncoderEvents` in
`src/src/main.cpp`) and the UDP command channel
(`src/src/wifi_udp_server.cpp`).

Modelling conventions:
* distances are rationals (the C++ `float` arithmetic here is only
  comparisons and `+ 0.5` on small values, with no rounding-sensitive use);
* the Arduino pseudo-random generator is an injected stream of raw draws
  `r : Nat -> Nat`; `random(lo, hi)` is `lo + r k % (hi - lo)`;
* each call to `readDistance()` consumes the head of a list of readings;
* each poll of the UDP socket consumes the head of a list of network
  events, where `none` means `parsePacket()` returned 0 and `some p`
  describes the arriving packet;
* the blocking receive loops (`waitForCmd`, `waitForCmdAny`,
  `waitShortPull`) are structural recursion over those finite lists,
  returning `none` when the list is exhausted without the loop exiting
  (so "blocks forever" is: returns `none` on every finite input);
* side effects are recorded in the state: outbound UDP sends in `sent`,
  servo commands in `brakeLog`, motor rewinds in `winds`.
-/

/-- Brake states of the servo actuator (servoBrakeRelease / Lock / Weak). -/
inductive Brake where
  | released
  | locked
  | weak
deriving Repr, DecidableEq

/-- One inbound UDP packet as observed by `readIncomingUDP`: source
endpoint, the value returned by `Udp.parsePacket()` (`size`), the number
of bytes `Udp.read` placed into the receive buffer (`len`), and those
bytes (`data`). -/
structure Packet where
  srcIp : Nat
  srcPort : Nat
  size : Nat
  len : Nat
  data : String
deriving Repr, DecidableEq

/-- Global firmware state: the tracked remote endpoint (`lastRemoteIp`,
`lastRemotePort`, with `lastIp = 0` meaning "no endpoint recorded yet",
matching `if (lastRemoteIp)`), the 255-byte receive buffer's current
C-string content, the brake, the profile bank `distanceArrays`, the
active profile `currentArray`, the `sequenceRunning` flag, and the
observation traces. -/
@[ext]
structure St where
  lastIp : Nat
  lastPort : Nat
  buffer : String
  brake : Brake
  brakeLog : List Brake
  bank : List (List ℚ)
  current : List ℚ
  running : Bool
  sent : List (Nat × Nat × String)
  winds : Nat
deriving Repr, DecidableEq

/-- Characters removed by Arduino `String::trim` (C `isspace`). -/
def isSpaceChar (c : Char) : Bool :=
  c == ' ' || c == '\t' || c == '\n' || c == '\x0b' || c == '\x0c' || c == '\r'

/-- Arduino `String::trim`: strip leading and trailing whitespace. -/
def trimStr (s : String) : String :=
  String.mk (((s.toList.dropWhile isSpaceChar).reverse.dropWhile isSpaceChar).reverse)

/-- The text `readIncomingUDP` yields for packet `p` given the current
receive buffer: if at least one byte was read the buffer is overwritten
and NUL-terminated, otherwise the residual buffer content survives;
either way the result is trimmed. -/
def msgText (st : St) (p : Packet) : String :=
  trimStr (if 0 < p.len then p.data else st.buffer)

/-- State effect of one `readIncomingUDP` call: if a packet is present
(`parsePacket` nonzero) the remote endpoint is updated unconditionally,
and the receive buffer is overwritten only when `Udp.read` returned a
positive length. -/
def readStep (st : St) (ev : Option Packet) : St :=
  match ev with
  | none => st
  | some p =>
    if p.size = 0 then st
    else { st with lastIp := p.srcIp, lastPort := p.srcPort,
                   buffer := if 0 < p.len then p.data else st.buffer }

/-- Message result of one `readIncomingUDP` call (`none` = returned false). -/
def readMsg (st : St) (ev : Option Packet) : Option String :=
  match ev with
  | none => none
  | some p => if p.size = 0 then none else some (msgText st p)

/-- `readIncomingUDP`: new state together with the message, if any. -/
def readIncomingUDP (st : St) (ev : Option Packet) : St × Option String :=
  (readStep st ev, readMsg st ev)

/-- `sendUDPMessageToLast`: a send is recorded only when a remote
endpoint has been recorded (`if (lastRemoteIp)`). -/
def sendUDPMessageToLast (st : St) (msg : String) : St :=
  if st.lastIp ≠ 0 then
    { st with sent := st.sent ++ [(st.lastIp, st.lastPort, msg)] }
  else st

/-- `servoBrakeLock`. -/
def servoBrakeLock (st : St) : St :=
  { st with brake := .locked, brakeLog := st.brakeLog ++ [.locked] }

/-- `servoBrakeRelease`. -/
def servoBrakeRelease (st : St) : St :=
  { st with brake := .released, brakeLog := st.brakeLog ++ [.released] }

/-- `servoBrakeWeak`. -/
def servoBrakeWeak (st : St) : St :=
  { st with brake := .weak, brakeLog := st.brakeLog ++ [.weak] }

/-- `motorWindBack`. -/
def motorWindBack (st : St) : St :=
  { st with winds := st.winds + 1 }

/-- `startEventSequence`: `idx = random(0,10)` modelled as `r % 10`;
copies `distanceArrays[idx]` into `currentArray` and sets
`sequenceRunning = true`. -/
def startEventSequence (st : St) (r : Nat) : St :=
  { st with current := st.bank.getD (r % 10) [], running := true }

/-- `handleUDPMessages`: one dispatch-loop poll. On a message: echo it
back, then classify Start / Stop / Winding / other, each followed by an
`ACK:` reply. `r` is the random draw consumed if a Start is accepted. -/
def handleUDPMessages (st : St) (ev : Option Packet) (r : Nat) : St :=
  match readMsg st ev with
  | none => readStep st ev
  | some msg =>
    let st1 := sendUDPMessageToLast (readStep st ev) msg
    if msg = "Start" then
      sendUDPMessageToLast (startEventSequence st1 r) "ACK: Start"
    else if msg = "Stop" then
      sendUDPMessageToLast (servoBrakeLock st1) "ACK: Stop"
    else if msg = "Winding" then
      sendUDPMessageToLast (motorWindBack st1) "ACK: Winding"
    else
      sendUDPMessageToLast st1 ("ACK: " ++ msg)

/-- `waitForCmd`: busy-poll `readIncomingUDP` until a message equal to
`target` arrives; on success returns the state and the unconsumed
events. Exhausting the (finite) event list models blocking forever. -/
def waitForCmd (target : String) : List (Option Packet) → St → Option (St × List (Option Packet))
  | [], _ => none
  | ev :: evs, st =>
    match readMsg st ev with
    | some msg =>
      if msg = target then some (readStep st ev, evs)
      else waitForCmd target evs (readStep st ev)
    | none => waitForCmd target evs (readStep st ev)

/-- `waitForCmdAny`: as `waitForCmd` but returns the first message equal
to any of `targets`, reporting which one matched. -/
def waitForCmdAny (targets : List String) : List (Option Packet) → St → Option (St × String × List (Option Packet))
  | [], _ => none
  | ev :: evs, st =>
    match readMsg st ev with
    | some msg =>
      if msg ∈ targets then some (readStep st ev, msg, evs)
      else waitForCmdAny targets evs (readStep st ev)
    | none => waitForCmdAny targets evs (readStep st ev)

/-- Loop body of `waitShortPull`: keep reading distances while they are
below `startDist + 0.5`. -/
def waitShortPullLoop (startDist : ℚ) : List ℚ → Option (List ℚ)
  | [] => none
  | d :: ds => if d < startDist + 1/2 then waitShortPullLoop startDist ds else some ds

/-- `waitShortPull`: record `startDist = readDistance()`, then block
until a reading reaches `startDist + 0.5`. -/
def waitShortPull : List ℚ → Option (List ℚ)
  | [] => none
  | d :: ds => waitShortPullLoop d ds

/-- Lines 63-64 of `processEncoderEvents`: the two unconditional
notification sends for thresholds 0 and 1. -/
def stage12 (dist : ℚ) (st : St) : St :=
  let st1 := if dist ≥ st.current.getD 0 0 then sendUDPMessageToLast st "Pain" else st
  if dist ≥ st1.current.getD 1 0 then sendUDPMessageToLast st1 "Pain2" else st1

/-- Lines 65-70 of `processEncoderEvents`: the HighDamp stage. -/
def stage3 (dist : ℚ) (st : St) (evs : List (Option Packet)) : Option (St × List (Option Packet)) :=
  if dist ≥ st.current.getD 2 0 then
    match waitForCmd "OK" evs (servoBrakeLock (sendUDPMessageToLast st "HighDamp")) with
    | none => none
    | some (st1, evs1) => some (servoBrakeRelease st1, evs1)
  else some (st, evs)

/-- Lines 71-83 of `processEncoderEvents`: the LowDamp stage. -/
def stage4 (dist : ℚ) (st : St) (ds : List ℚ) (evs : List (Option Packet)) :
    Option (St × List ℚ × List (Option Packet)) :=
  if dist ≥ st.current.getD 3 0 then
    match waitForCmdAny ["OK1", "Continue"] evs (servoBrakeWeak (sendUDPMessageToLast st "LowDamp")) with
    | none => none
    | some (st1, cmd, evs1) =>
      if cmd = "OK1" then some (servoBrakeRelease st1, ds, evs1)
      else if cmd = "Continue" then
        match waitShortPull ds with
        | none => none
        | some ds1 =>
          match waitForCmd "OK2" evs1 (sendUDPMessageToLast st1 "Keep") with
          | none => none
          | some (st2, evs2) => some (servoBrakeRelease st2, ds1, evs2)
      else some (st1, ds, evs1)
  else some (st, ds, evs)

/-- `processEncoderEvents`, one sequencer tick: no-op unless
`sequenceRunning`; otherwise reads one distance and runs the four
threshold stages in order, threading the remaining distance readings and
network events through the blocking waits. -/
def processEncoderEvents (st : St) (ds : List ℚ) (evs : List (Option Packet)) :
    Option (St × List ℚ × List (Option Packet)) :=
  if st.running = false then some (st, ds, evs)
  else
    match ds with
    | [] => none
    | dist :: ds1 =>
      match stage3 dist (stage12 dist st) evs with
      | none => none
      | some (st1, evs1) => stage4 dist st1 ds1 evs1

/-- `eventsInit`: the profile bank, 10 profiles of 4 thresholds, with
`distanceArrays[i][j] = random(5 + 10*j, 15 + 10*j)`. -/
def eventsInit (r : Nat → Nat) : List (List ℚ) :=
  (List.range 10).map (fun i =>
    [((5 + r (4 * i) % 10 : ℕ) : ℚ), ((15 + r (4 * i + 1) % 10 : ℕ) : ℚ),
     ((25 + r (4 * i + 2) % 10 : ℕ) : ℚ), ((35 + r (4 * i + 3) % 10 : ℕ) : ℚ)])

/-- State after `setup()`: no remote endpoint yet (`lastRemoteIp` is
0.0.0.0), zeroed receive buffer, zeroed `currentArray`, sequencer not
running, bank generated by `eventsInit` from the draw stream `r`. -/
def initialState (r : Nat → Nat) : St :=
  { lastIp := 0, lastPort := 0, buffer := "", brake := .released, brakeLog := [],
    bank := eventsInit r, current := [0, 0, 0, 0], running := false, sent := [], winds := 0 }

/-- One iteration of `loop()` seen as two separable operations: a
dispatch-loop poll (`handleUDPMessages`) and a sequencer tick
(`processEncoderEvents`) with its input tapes. -/
inductive Op where
  | udp (ev : Option Packet) (r : Nat)
  | encoder (ds : List ℚ) (evs : List (Option Packet))
deriving Repr

/-- Execute one operation; `none` when a blocking wait never returns. -/
def step (st : St) : Op → Option St
  | .udp ev r => some (handleUDPMessages st ev r)
  | .encoder ds evs => (processEncoderEvents st ds evs).map (fun x => x.1)

/-- Execute a list of operations in order. -/
def runOps : St → List Op → Option St
  | st, [] => some st
  | st, op :: ops =>
    match step st op with
    | none => none
    | some st' => runOps st' ops

/-- The texts of all recorded outbound sends, in order. -/
def sentTexts (st : St) : List String :=
  st.sent.map (fun e => e.2.2)

/-- The messages successive `readIncomingUDP` polls yield on an event
list, threading the buffer/endpoint state. -/
def deliveredMsgs : List (Option Packet) → St → List String
  | [], _ => []
  | ev :: evs, st =>
    match readMsg st ev with
    | some m => m :: deliveredMsgs evs (readStep st ev)
    | none => deliveredMsgs evs (readStep st ev)

/-- The sequencer-relevant core of the state: run flag, bank, profile. -/
def core (st : St) : Bool × List (List ℚ) × List ℚ :=
  (st.running, st.bank, st.current)

/-- Everything a blocking wait cannot change: all fields except the
endpoint and the receive buffer. -/
def obs (st : St) : List (Nat × Nat × String) × Brake × List Brake × Bool × List (List ℚ) × List ℚ × Nat :=
  (st.sent, st.brake, st.brakeLog, st.running, st.bank, st.current, st.winds)

/-- Running state with profile `[10,20,30,40]` and a recorded remote
endpoint `1:7`, used as a concrete input for counterexamples and
witnesses. -/
def stRun : St :=
  { lastIp := 1, lastPort := 7, buffer := "", brake := .released, brakeLog := [],
    bank := [], current := [10, 20, 30, 40], running := true, sent := [], winds := 0 }

/-- Idle state with a recorded remote endpoint `9:9`. -/
def stIdle : St :=
  { lastIp := 9, lastPort := 9, buffer := "", brake := .released, brakeLog := [],
    bank := [], current := [], running := false, sent := [], winds := 0 }

/-- Running state with profile `[10,20,30,5]`: at distance 7 only the
fourth threshold is crossed, isolating the LowDamp stage. -/
def stLow : St :=
  { lastIp := 1, lastPort := 7, buffer := "", brake := .released, brakeLog := [],
    bank := [], current := [10, 20, 30, 5], running := true, sent := [], winds := 0 }

/-- The test scenario of spec section 8: a Start command, then ticks at
distances 5, 12, 22, 32, 42, acknowledging each HighDamp wait with
`OK` and the LowDamp wait with `OK1`. The draw stream `fun _ => 5`
makes every generated profile equal to `[10,20,30,40]`. -/
def scenarioOps : List Op :=
  [Op.udp (some ⟨1, 7, 5, 5, "Start"⟩) 0,
   Op.encoder [5] [],
   Op.encoder [12] [],
   Op.encoder [22] [],
   Op.encoder [32] [some ⟨1, 7, 2, 2, "OK"⟩],
   Op.encoder [42] [some ⟨1, 7, 2, 2, "OK"⟩, some ⟨1, 7, 3, 3, "OK1"⟩]]

/-! ### Frame lemmas for the primitive operations -/

theorem obs_readStep (st : St) (ev : Option Packet) : obs (readStep st ev) = obs st := by
  cases ev with
  | none => rfl
  | some p => unfold readStep obs; dsimp only; split <;> rfl

theorem obs_fields {a b : St} (h : obs a = obs b) :
    a.sent = b.sent ∧ a.brake = b.brake ∧ a.brakeLog = b.brakeLog ∧ a.running = b.running ∧
    a.bank = b.bank ∧ a.current = b.current ∧ a.winds = b.winds := by
  simp only [obs, Prod.mk.injEq] at h
  exact h

theorem core_of_obs {a b : St} (h : obs a = obs b) : core a = core b := by
  obtain ⟨-, -, -, h4, h5, h6, -⟩ := obs_fields h
  unfold core
  rw [h4, h5, h6]

theorem core_sendToLast (st : St) (m : String) : core (sendUDPMessageToLast st m) = core st := by
  unfold sendUDPMessageToLast core; split <;> rfl

theorem core_servoBrakeLock (st : St) : core (servoBrakeLock st) = core st := rfl

theorem core_servoBrakeRelease (st : St) : core (servoBrakeRelease st) = core st := rfl

theorem core_servoBrakeWeak (st : St) : core (servoBrakeWeak st) = core st := rfl

theorem core_fields {a b : St} (h : core a = core b) :
    a.running = b.running ∧ a.bank = b.bank ∧ a.current = b.current := by
  simp only [core, Prod.mk.injEq] at h
  exact h

theorem sendToLast_of_ne {st : St} (m : String) (h : st.lastIp ≠ 0) :
    sendUDPMessageToLast st m = { st with sent := st.sent ++ [(st.lastIp, st.lastPort, m)] } := by
  unfold sendUDPMessageToLast
  rw [if_pos h]

theorem sendToLast_sent_mono (st : St) (m : String) :
    ∃ l, (sendUDPMessageToLast st m).sent = st.sent ++ l := by
  unfold sendUDPMessageToLast
  split
  · exact ⟨_, rfl⟩
  · exact ⟨[], (List.append_nil _).symm⟩

theorem waitForCmd_obs (t : String) (evs : List (Option Packet)) :
    ∀ st st' rest, waitForCmd t evs st = some (st', rest) → obs st' = obs st := by
  induction evs with
  | nil => intro st st' rest h; simp [waitForCmd] at h
  | cons ev evs ih =>
    intro st st' rest h
    unfold waitForCmd at h
    split at h
    · split at h
      · obtain ⟨h1, h2⟩ := Prod.mk.injEq .. ▸ Option.some.inj h
        subst h1
        exact obs_readStep st ev
      · exact (ih _ _ _ h).trans (obs_readStep st ev)
    · exact (ih _ _ _ h).trans (obs_readStep st ev)

theorem waitForCmdAny_obs (ts : List String) (evs : List (Option Packet)) :
    ∀ st st' cmd rest, waitForCmdAny ts evs st = some (st', cmd, rest) → obs st' = obs st := by
  induction evs with
  | nil => intro st st' cmd rest h; simp [waitForCmdAny] at h
  | cons ev evs ih =>
    intro st st' cmd rest h
    unfold waitForCmdAny at h
    split at h
    · split at h
      · obtain ⟨h1, h2⟩ := Prod.mk.injEq .. ▸ Option.some.inj h
        subst h1
        exact obs_readStep st ev
      · exact (ih _ _ _ _ h).trans (obs_readStep st ev)
    · exact (ih _ _ _ _ h).trans (obs_readStep st ev)

/-- The message a `waitForCmdAny` call returns is one of its targets. -/
theorem waitForCmdAny_mem (ts : List String) (evs : List (Option Packet)) :
    ∀ st st' cmd rest, waitForCmdAny ts evs st = some (st', cmd, rest) → cmd ∈ ts := by
  induction evs with
  | nil => intro st st' cmd rest h; simp [waitForCmdAny] at h
  | cons ev evs ih =>
    intro st st' cmd rest h
    unfold waitForCmdAny at h
    split at h
    · next msg hm =>
      split at h
      · next hin =>
        simp only [Option.some.injEq, Prod.mk.injEq] at h
        obtain ⟨-, h2, -⟩ := h
        exact h2 ▸ hin
      · exact ih _ _ _ _ h
    · exact ih _ _ _ _ h

/-! ### Stage-level lemmas -/

theorem sent_mono_trans {a b c : St} (h1 : ∃ l, b.sent = a.sent ++ l)
    (h2 : ∃ l, c.sent = b.sent ++ l) : ∃ l, c.sent = a.sent ++ l := by
  obtain ⟨l1, e1⟩ := h1
  obtain ⟨l2, e2⟩ := h2
  exact ⟨l1 ++ l2, by rw [e2, e1, List.append_assoc]⟩

theorem sent_mono_refl (a : St) : ∃ l, a.sent = a.sent ++ l :=
  ⟨[], (List.append_nil _).symm⟩

theorem core_stage12 (dist : ℚ) (st : St) : core (stage12 dist st) = core st := by
  unfold stage12
  dsimp only
  split <;> split <;> simp [core_sendToLast]

theorem sent_stage12 (dist : ℚ) (st : St) : ∃ l, (stage12 dist st).sent = st.sent ++ l := by
  unfold stage12
  dsimp only
  split <;> split
  · exact sent_mono_trans (sendToLast_sent_mono st "Pain") (sendToLast_sent_mono _ "Pain2")
  · exact sendToLast_sent_mono st "Pain"
  · exact sendToLast_sent_mono st "Pain2"
  · exact sent_mono_refl st

theorem stage12_pain {dist : ℚ} {st : St} (h0 : dist ≥ st.current.getD 0 0)
    (hip : st.lastIp ≠ 0) :
    ∃ l, (stage12 dist st).sent = st.sent ++ (st.lastIp, st.lastPort, "Pain") :: l := by
  unfold stage12
  dsimp only
  rw [if_pos h0, sendToLast_of_ne "Pain" hip]
  split
  · obtain ⟨l2, e2⟩ := sendToLast_sent_mono
      { st with sent := st.sent ++ [(st.lastIp, st.lastPort, "Pain")] } "Pain2"
    exact ⟨l2, by rw [e2]; simp⟩
  · exact ⟨[], by simp⟩

theorem core_stage3 {dist : ℚ} {st : St} {evs : List (Option Packet)} {st1 : St}
    {evs1 : List (Option Packet)} (h : stage3 dist st evs = some (st1, evs1)) :
    core st1 = core st := by
  unfold stage3 at h
  split at h
  · split at h
    · simp at h
    · next stw evsw hw =>
      simp only [Option.some.injEq, Prod.mk.injEq] at h
      obtain ⟨h1, -⟩ := h
      subst h1
      have hc := core_of_obs (waitForCmd_obs _ _ _ _ _ hw)
      calc core (servoBrakeRelease stw) = core stw := core_servoBrakeRelease stw
        _ = core (servoBrakeLock (sendUDPMessageToLast st "HighDamp")) := hc
        _ = core st := by rw [core_servoBrakeLock, core_sendToLast]
  · simp only [Option.some.injEq, Prod.mk.injEq] at h
    obtain ⟨h1, -⟩ := h
    subst h1
    rfl

theorem sent_stage3 {dist : ℚ} {st : St} {evs : List (Option Packet)} {st1 : St}
    {evs1 : List (Option Packet)} (h : stage3 dist st evs = some (st1, evs1)) :
    ∃ l, st1.sent = st.sent ++ l := by
  unfold stage3 at h
  split at h
  · split at h
    · simp at h
    · next stw evsw hw =>
      simp only [Option.some.injEq, Prod.mk.injEq] at h
      obtain ⟨h1, -⟩ := h
      subst h1
      have hs := (obs_fields (waitForCmd_obs _ _ _ _ _ hw)).1
      refine sent_mono_trans (sendToLast_sent_mono st "HighDamp") ⟨[], ?_⟩
      show (servoBrakeRelease stw).sent = _
      rw [List.append_nil]
      exact hs
  · simp only [Option.some.injEq, Prod.mk.injEq] at h
    obtain ⟨h1, -⟩ := h
    subst h1
    exact sent_mono_refl st

theorem core_stage4 {dist : ℚ} {st : St} {ds : List ℚ} {evs : List (Option Packet)} {st1 : St}
    {ds1 : List ℚ} {evs1 : List (Option Packet)}
    (h : stage4 dist st ds evs = some (st1, ds1, evs1)) : core st1 = core st := by
  unfold stage4 at h
  split at h
  · split at h
    · simp at h
    · next stw cmd evsw hw =>
      have hc : core stw = core st := by
        have := core_of_obs (waitForCmdAny_obs _ _ _ _ _ _ hw)
        calc core stw = core (servoBrakeWeak (sendUDPMessageToLast st "LowDamp")) := this
          _ = core st := by rw [core_servoBrakeWeak, core_sendToLast]
      split at h
      · simp only [Option.some.injEq, Prod.mk.injEq] at h
        obtain ⟨h1, -⟩ := h
        subst h1
        exact (core_servoBrakeRelease stw).trans hc
      · split at h
        · split at h
          · simp at h
          · split at h
            · simp at h
            · next st2 evs2 hw2 =>
              simp only [Option.some.injEq, Prod.mk.injEq] at h
              obtain ⟨h1, -⟩ := h
              subst h1
              have hc2 := core_of_obs (waitForCmd_obs _ _ _ _ _ hw2)
              calc core (servoBrakeRelease st2) = core st2 := core_servoBrakeRelease st2
                _ = core (sendUDPMessageToLast stw "Keep") := hc2
                _ = core stw := core_sendToLast stw "Keep"
                _ = core st := hc
        · simp only [Option.some.injEq, Prod.mk.injEq] at h
          obtain ⟨h1, -⟩ := h
          subst h1
          exact hc
  · simp only [Option.some.injEq, Prod.mk.injEq] at h
    obtain ⟨h1, -⟩ := h
    subst h1
    rfl

theorem sent_stage4 {dist : ℚ} {st : St} {ds : List ℚ} {evs : List (Option Packet)} {st1 : St}
    {ds1 : List ℚ} {evs1 : List (Option Packet)}
    (h : stage4 dist st ds evs = some (st1, ds1, evs1)) : ∃ l, st1.sent = st.sent ++ l := by
  unfold stage4 at h
  split at h
  · split at h
    · simp at h
    · next stw cmd evsw hw =>
      have hs : ∃ l, stw.sent = st.sent ++ l := by
        have := (obs_fields (waitForCmdAny_obs _ _ _ _ _ _ hw)).1
        refine sent_mono_trans (sendToLast_sent_mono st "LowDamp") ⟨[], ?_⟩
        rw [List.append_nil]
        exact this
      split at h
      · simp only [Option.some.injEq, Prod.mk.injEq] at h
        obtain ⟨h1, -⟩ := h
        subst h1
        exact hs
      · split at h
        · split at h
          · simp at h
          · split at h
            · simp at h
            · next st2 evs2 hw2 =>
              simp only [Option.some.injEq, Prod.mk.injEq] at h
              obtain ⟨h1, -⟩ := h
              subst h1
              have h2s := (obs_fields (waitForCmd_obs _ _ _ _ _ hw2)).1
              refine sent_mono_trans hs ?_
              refine sent_mono_trans (sendToLast_sent_mono stw "Keep") ⟨[], ?_⟩
              rw [List.append_nil]
              exact h2s
        · simp only [Option.some.injEq, Prod.mk.injEq] at h
          obtain ⟨h1, -⟩ := h
          subst h1
          exact hs
  · simp only [Option.some.injEq, Prod.mk.injEq] at h
    obtain ⟨h1, -⟩ := h
    subst h1
    exact sent_mono_refl st

/-! ### Tick- and system-level lemmas -/

theorem core_processEncoderEvents {st : St} {ds : List ℚ} {evs : List (Option Packet)}
    {st' : St} {ds' : List ℚ} {evs' : List (Option Packet)}
    (h : processEncoderEvents st ds evs = some (st', ds', evs')) : core st' = core st := by
  unfold processEncoderEvents at h
  split at h
  · simp only [Option.some.injEq, Prod.mk.injEq] at h
    obtain ⟨h1, -⟩ := h
    subst h1
    rfl
  · split at h
    · simp at h
    · split at h
      · simp at h
      · next st1 evs1 h3 =>
        calc core st' = core st1 := core_stage4 h
          _ = core (stage12 _ st) := core_stage3 h3
          _ = core st := core_stage12 _ st

theorem sent_processEncoderEvents {st : St} {ds : List ℚ} {evs : List (Option Packet)}
    {st' : St} {ds' : List ℚ} {evs' : List (Option Packet)}
    (h : processEncoderEvents st ds evs = some (st', ds', evs')) :
    ∃ l, st'.sent = st.sent ++ l := by
  unfold processEncoderEvents at h
  split at h
  · simp only [Option.some.injEq, Prod.mk.injEq] at h
    obtain ⟨h1, -⟩ := h
    subst h1
    exact sent_mono_refl st
  · split at h
    · simp at h
    · split at h
      · simp at h
      · next st1 evs1 h3 =>
        exact sent_mono_trans (sent_mono_trans (sent_stage12 _ st) (sent_stage3 h3))
          (sent_stage4 h)

theorem bank_sendToLast (a : St) (m : String) : (sendUDPMessageToLast a m).bank = a.bank :=
  (core_fields (core_sendToLast a m)).2.1

theorem running_sendToLast (a : St) (m : String) :
    (sendUDPMessageToLast a m).running = a.running :=
  (core_fields (core_sendToLast a m)).1

theorem handleUDP_bank (st : St) (ev : Option Packet) (r : Nat) :
    (handleUDPMessages st ev r).bank = st.bank := by
  unfold handleUDPMessages
  split
  · exact (obs_fields (obs_readStep st ev)).2.2.2.2.1
  · dsimp only
    split_ifs <;>
      simp [bank_sendToLast, startEventSequence, servoBrakeLock, motorWindBack,
            (obs_fields (obs_readStep st ev)).2.2.2.2.1]

theorem handleUDP_running (st : St) (ev : Option Packet) (r : Nat) (h : st.running = true) :
    (handleUDPMessages st ev r).running = true := by
  unfold handleUDPMessages
  split
  · rw [(obs_fields (obs_readStep st ev)).2.2.2.1]
    exact h
  · dsimp only
    split_ifs <;>
      simp [running_sendToLast, startEventSequence, servoBrakeLock, motorWindBack,
            (obs_fields (obs_readStep st ev)).2.2.2.1, h]

theorem step_bank {st st' : St} {op : Op} (h : step st op = some st') : st'.bank = st.bank := by
  cases op with
  | udp ev r =>
    simp only [step, Option.some.injEq] at h
    subst h
    exact handleUDP_bank st ev r
  | encoder ds evs =>
    simp only [step] at h
    cases hpe : processEncoderEvents st ds evs with
    | none => rw [hpe] at h; simp at h
    | some x =>
      obtain ⟨a, b, c⟩ := x
      rw [hpe] at h
      simp only [Option.map_some', Option.some.injEq] at h
      subst h
      exact (core_fields (core_processEncoderEvents hpe)).2.1

theorem step_running {st st' : St} {op : Op} (h : step st op = some st')
    (hr : st.running = true) : st'.running = true := by
  cases op with
  | udp ev r =>
    simp only [step, Option.some.injEq] at h
    subst h
    exact handleUDP_running st ev r hr
  | encoder ds evs =>
    simp only [step] at h
    cases hpe : processEncoderEvents st ds evs with
    | none => rw [hpe] at h; simp at h
    | some x =>
      obtain ⟨a, b, c⟩ := x
      rw [hpe] at h
      simp only [Option.map_some', Option.some.injEq] at h
      subst h
      rw [(core_fields (core_processEncoderEvents hpe)).1]
      exact hr

theorem runOps_bank {ops : List Op} : ∀ {st st' : St}, runOps st ops = some st' →
    st'.bank = st.bank := by
  induction ops with
  | nil =>
    intro st st' h
    simp only [runOps, Option.some.injEq] at h
    subst h
    rfl
  | cons op ops ih =>
    intro st st' h
    unfold runOps at h
    split at h
    · simp at h
    · next st1 h1 => exact (ih h).trans (step_bank h1)

theorem runOps_running {ops : List Op} : ∀ {st st' : St}, runOps st ops = some st' →
    st.running = true → st'.running = true := by
  induction ops with
  | nil =>
    intro st st' h hr
    simp only [runOps, Option.some.injEq] at h
    subst h
    exact hr
  | cons op ops ih =>
    intro st st' h hr
    unfold runOps at h
    split at h
    · simp at h
    · next st1 h1 => exact ih h (step_running h1 hr)

/-! ### Characterization of the blocking waits -/

theorem waitShortPullLoop_none {s : ℚ} {ds : List ℚ} (h : ∀ x ∈ ds, x < s + 1/2) :
    waitShortPullLoop s ds = none := by
  induction ds with
  | nil => rfl
  | cons d ds ih =>
    unfold waitShortPullLoop
    rw [if_pos (h d (List.mem_cons_self d ds))]
    exact ih (fun x hx => h x (List.mem_cons_of_mem d hx))

theorem waitShortPullLoop_skip {s : ℚ} {ds1 : List ℚ} {d : ℚ} {rest : List ℚ}
    (h : ∀ x ∈ ds1, x < s + 1/2) (hd : ¬ d < s + 1/2) :
    waitShortPullLoop s (ds1 ++ d :: rest) = some rest := by
  induction ds1 with
  | nil =>
    simp only [List.nil_append, waitShortPullLoop]
    rw [if_neg hd]
  | cons a ds1 ih =>
    rw [List.cons_append]
    simp only [waitShortPullLoop]
    rw [if_pos (h a (List.mem_cons_self a ds1))]
    exact ih (fun x hx => h x (List.mem_cons_of_mem a hx))

theorem waitForCmd_none_iff (t : String) (evs : List (Option Packet)) :
    ∀ st, waitForCmd t evs st = none ↔ t ∉ deliveredMsgs evs st := by
  induction evs with
  | nil => intro st; simp [waitForCmd, deliveredMsgs]
  | cons ev evs ih =>
    intro st
    cases hm : readMsg st ev with
    | none =>
      simp only [waitForCmd, deliveredMsgs, hm]
      exact ih (readStep st ev)
    | some msg =>
      simp only [waitForCmd, deliveredMsgs, hm]
      by_cases he : msg = t
      · subst he
        simp
      · rw [if_neg he]
        rw [ih (readStep st ev)]
        simp only [List.mem_cons]
        constructor
        · intro hn hmem
          rcases hmem with h1 | h2
          · exact he h1.symm
          · exact hn h2
        · intro hn hmem
          exact hn (Or.inr hmem)

theorem waitForCmd_some_split (t : String) (evs : List (Option Packet)) :
    ∀ st st' rest, waitForCmd t evs st = some (st', rest) →
      ∃ pre ms, evs = pre ++ rest ∧ deliveredMsgs pre st = ms ++ [t] ∧ t ∉ ms := by
  induction evs with
  | nil => intro st st' rest h; simp [waitForCmd] at h
  | cons ev evs ih =>
    intro st st' rest h
    unfold waitForCmd at h
    split at h
    · next msg hm =>
      split at h
      · next he =>
        simp only [Option.some.injEq, Prod.mk.injEq] at h
        obtain ⟨-, h2⟩ := h
        subst h2
        refine ⟨[ev], [], rfl, ?_, by simp⟩
        simp [deliveredMsgs, hm, he]
      · next he =>
        obtain ⟨pre, ms, hpre, hdel, hnot⟩ := ih _ _ _ h
        refine ⟨ev :: pre, msg :: ms, by rw [hpre]; rfl, ?_, ?_⟩
        · simp [deliveredMsgs, hm, hdel]
        · simp only [List.mem_cons]
          intro hmem
          rcases hmem with h1 | h2
          · exact he h1.symm
          · exact hnot h2
    · next hm =>
      obtain ⟨pre, ms, hpre, hdel, hnot⟩ := ih _ _ _ h
      exact ⟨ev :: pre, ms, by rw [hpre]; rfl, by simp [deliveredMsgs, hm, hdel], hnot⟩

theorem waitForCmd_endpoint (t : String) (evs : List (Option Packet)) :
    ∀ st st' rest, waitForCmd t evs st = some (st', rest) →
      ∃ p, some p ∈ evs ∧ p.size ≠ 0 ∧ st'.lastIp = p.srcIp ∧ st'.lastPort = p.srcPort := by
  induction evs with
  | nil => intro st st' rest h; simp [waitForCmd] at h
  | cons ev evs ih =>
    intro st st' rest h
    unfold waitForCmd at h
    split at h
    · next msg hm =>
      split at h
      · simp only [Option.some.injEq, Prod.mk.injEq] at h
        obtain ⟨h1, -⟩ := h
        subst h1
        cases ev with
        | none => simp [readMsg] at hm
        | some p =>
          simp only [readMsg] at hm
          have hz : p.size ≠ 0 := by
            intro hz
            rw [if_pos hz] at hm
            exact Option.noConfusion hm
          refine ⟨p, List.mem_cons_self _ _, hz, ?_, ?_⟩ <;>
            · simp only [readStep]
              rw [if_neg hz]
      · obtain ⟨p, hp, hrest⟩ := ih _ _ _ h
        exact ⟨p, List.mem_cons_of_mem _ hp, hrest⟩
    · obtain ⟨p, hp, hrest⟩ := ih _ _ _ h
      exact ⟨p, List.mem_cons_of_mem _ hp, hrest⟩

/-! ### The profile bank -/

theorem eventsInit_getD (r : Nat → Nat) {i : ℕ} (hi : i < 10) :
    (eventsInit r).getD i [] =
      [((5 + r (4 * i) % 10 : ℕ) : ℚ), ((15 + r (4 * i + 1) % 10 : ℕ) : ℚ),
       ((25 + r (4 * i + 2) % 10 : ℕ) : ℚ), ((35 + r (4 * i + 3) % 10 : ℕ) : ℚ)] := by
  have hlen : i < (eventsInit r).length := by
    simpa [eventsInit] using hi
  rw [List.getD_eq_getElem _ _ hlen]
  simp [eventsInit]

/-! ### Small evaluation helpers -/

theorem sent_readStep (st : St) (ev : Option Packet) : (readStep st ev).sent = st.sent :=
  (obs_fields (obs_readStep st ev)).1

theorem brake_readStep (st : St) (ev : Option Packet) : (readStep st ev).brake = st.brake :=
  (obs_fields (obs_readStep st ev)).2.1

theorem brakeLog_readStep (st : St) (ev : Option Packet) :
    (readStep st ev).brakeLog = st.brakeLog :=
  (obs_fields (obs_readStep st ev)).2.2.1

theorem readStep_some_ne (st : St) {p : Packet} (hs : p.size ≠ 0) :
    readStep st (some p) =
      { st with lastIp := p.srcIp, lastPort := p.srcPort,
                buffer := if 0 < p.len then p.data else st.buffer } := by
  simp only [readStep]
  rw [if_neg hs]

theorem readMsg_some_ne (st : St) {p : Packet} (hs : p.size ≠ 0) :
    readMsg st (some p) = some (msgText st p) := by
  simp only [readMsg]
  rw [if_neg hs]

theorem processEncoderEvents_running {st : St} (hr : st.running = true) (dist : ℚ)
    (ds1 : List ℚ) (evs : List (Option Packet)) :
    processEncoderEvents st (dist :: ds1) evs =
      match stage3 dist (stage12 dist st) evs with
      | none => none
      | some (st1, evs1) => stage4 dist st1 ds1 evs1 := by
  unfold processEncoderEvents
  rw [hr]
  rfl

theorem stage12_skip {dist : ℚ} {st : St} (h0 : ¬ dist ≥ st.current.getD 0 0)
    (h1 : ¬ dist ≥ st.current.getD 1 0) : stage12 dist st = st := by
  unfold stage12
  dsimp only
  rw [if_neg h0, if_neg h1]

theorem stage3_skip {dist : ℚ} {st : St} (evs : List (Option Packet))
    (h2 : ¬ dist ≥ st.current.getD 2 0) : stage3 dist st evs = some (st, evs) := by
  unfold stage3
  rw [if_neg h2]

theorem waitCmd_one (t : String) (st : St) (ev : Option Packet)
    (hm : readMsg st ev = some t) : waitForCmd t [ev] st = some (readStep st ev, []) := by
  simp [waitForCmd, hm]

theorem waitAny_one (ts : List String) (st : St) (ev : Option Packet) (msg : String)
    (hm : readMsg st ev = some msg) (hin : msg ∈ ts) :
    waitForCmdAny ts [ev] st = some (readStep st ev, msg, []) := by
  simp only [waitForCmdAny, hm, if_pos hin]

theorem handleUDP_sent_eq (st : St) (p : Packet) (r : Nat) (hs : p.size ≠ 0)
    (hip : p.srcIp ≠ 0) :
    (handleUDPMessages st (some p) r).sent =
      st.sent ++ [(p.srcIp, p.srcPort, msgText st p),
                  (p.srcIp, p.srcPort, "ACK: " ++ msgText st p)] := by
  have hm := readMsg_some_ne st hs
  have e1 : (readStep st (some p)).lastIp = p.srcIp := by rw [readStep_some_ne st hs]
  have e2 : (readStep st (some p)).lastPort = p.srcPort := by rw [readStep_some_ne st hs]
  simp only [handleUDPMessages, hm]
  split_ifs with h1 h2 h3 <;>
    simp [sendUDPMessageToLast, startEventSequence, servoBrakeLock, motorWindBack,
          e1, e2, sent_readStep, hip, *]

/-! ### Claims -/

/-- Claim C2, counterexample: a datagram consumed inside a pending
`waitForCmd` (here `OK`, arriving while the wait polls, at a state with
a recorded remote endpoint) is consumed — the wait returns — yet no echo
and no `ACK:` reply is ever sent for it: the send trace stays empty. -/
theorem C2_counterexample :
    (waitForCmd "OK" [some ⟨3, 4, 2, 2, "OK"⟩] stIdle).map (fun x => (x.1.sent, x.2)) =
      some ([], []) := by decide

/-- Claim C2 (amended): a datagram consumed by the dispatch loop
(`handleUDPMessages`) with a nonzero sender address yields exactly one
echo of its trimmed text followed by exactly one reply
`ACK: <trimmed text>`; a datagram consumed inside a pending `waitForCmd`
or `waitForCmdAny` yields no echo and no reply at all. -/
theorem C2_thm :
    (∀ (st : St) (p : Packet) (r : Nat), p.size ≠ 0 → p.srcIp ≠ 0 →
      (handleUDPMessages st (some p) r).sent =
        st.sent ++ [(p.srcIp, p.srcPort, msgText st p),
                    (p.srcIp, p.srcPort, "ACK: " ++ msgText st p)]) ∧
    (∀ (t : String) (evs : List (Option Packet)) (st st' : St) (rest : List (Option Packet)),
      waitForCmd t evs st = some (st', rest) → st'.sent = st.sent) ∧
    (∀ (ts : List String) (evs : List (Option Packet)) (st st' : St) (cmd : String)
      (rest : List (Option Packet)),
      waitForCmdAny ts evs st = some (st', cmd, rest) → st'.sent = st.sent) :=
  ⟨fun st p r hs hip => handleUDP_sent_eq st p r hs hip,
   fun t evs st st' rest h => (obs_fields (waitForCmd_obs t evs st st' rest h)).1,
   fun ts evs st st' cmd rest h => (obs_fields (waitForCmdAny_obs ts evs st st' cmd rest h)).1⟩

/-- Witness for C2: concrete dispatch of a `Hello` datagram from `3:4`
produces exactly the echo and the `ACK: Hello` reply. -/
theorem C2_witness :
    (handleUDPMessages stIdle (some ⟨3, 4, 5, 5, "Hello"⟩) 0).sent =
      [(3, 4, "Hello"), (3, 4, "ACK: Hello")] :=
  (C2_thm.1 stIdle ⟨3, 4, 5, 5, "Hello"⟩ 0 (by decide) (by decide)).trans (by decide)

/-- Claim C3: `waitForCmd target` returns `none` on a finite inbound
stream exactly when no delivered message equals `target` (so it never
returns if the target never arrives), and when it returns, the consumed
prefix delivered some messages of which only the last equals `target`
(every earlier message was a discarded non-match). -/
theorem C3_thm :
    (∀ (t : String) (evs : List (Option Packet)) (st : St),
      waitForCmd t evs st = none ↔ t ∉ deliveredMsgs evs st) ∧
    (∀ (t : String) (evs : List (Option Packet)) (st st' : St) (rest : List (Option Packet)),
      waitForCmd t evs st = some (st', rest) →
        ∃ pre ms, evs = pre ++ rest ∧ deliveredMsgs pre st = ms ++ [t] ∧ t ∉ ms) :=
  ⟨fun t evs st => waitForCmd_none_iff t evs st,
   fun t evs st st' rest h => waitForCmd_some_split t evs st st' rest h⟩

/-- Witness for C3: with two decoys and no target the wait never
returns; a mixed stream with the target last does return. -/
theorem C3_witness :
    waitForCmd "Go" [some ⟨2, 2, 3, 4, "Hey"⟩, some ⟨2, 2, 3, 5, "Nope!"⟩] stIdle = none ∧
    waitForCmd "Go" [some ⟨2, 2, 3, 4, "Hey"⟩, some ⟨2, 2, 2, 2, "Go"⟩] stIdle ≠ none := by
  constructor
  · exact (C3_thm.1 "Go" _ stIdle).mpr (by decide)
  · intro hnone
    exact absurd ((C3_thm.1 "Go" _ stIdle).mp hnone) (by decide)

/-- Claim C5: `startEventSequence` picks index `r % 10` (the model of
`random(0,10)`, in `[0,10)` and attaining every such index), copies that
bank profile as the active one and sets running; a second start fully
overwrites the first, and every subsequent tick sees only the latest
profile. -/
theorem C5_thm :
    (∀ (st : St) (r : Nat), (startEventSequence st r).running = true ∧
      (startEventSequence st r).current = st.bank.getD (r % 10) [] ∧ r % 10 < 10) ∧
    (∀ j : Nat, j < 10 → ∃ r : Nat, r % 10 = j) ∧
    (∀ (st : St) (r1 r2 : Nat),
      startEventSequence (startEventSequence st r1) r2 = startEventSequence st r2) ∧
    (∀ (st : St) (r1 r2 : Nat) (ds : List ℚ) (evs : List (Option Packet)),
      processEncoderEvents (startEventSequence (startEventSequence st r1) r2) ds evs =
        processEncoderEvents (startEventSequence st r2) ds evs) := by
  refine ⟨fun st r => ⟨rfl, rfl, Nat.mod_lt r (by norm_num)⟩, ?_,
    fun st r1 r2 => rfl, fun st r1 r2 ds evs => rfl⟩
  intro j hj
  exact ⟨j, Nat.mod_eq_of_lt hj⟩

/-- Witness for C5 at concrete draws 37 and 3. -/
theorem C5_witness :
    (startEventSequence stIdle 37).running = true ∧ 37 % 10 < 10 ∧ ∃ r : Nat, r % 10 = 3 :=
  ⟨(C5_thm.1 stIdle 37).1, (C5_thm.1 stIdle 37).2.2, C5_thm.2.1 3 (by decide)⟩

/-- Claim C6: every packet reported present updates the tracked remote
endpoint to its sender regardless of content or read length;
`sendUDPMessageToLast` targets exactly the tracked endpoint; all sends
of a dispatch-loop iteration go to that packet's sender; and a packet
consumed inside a `waitForCmd` also leaves the endpoint pointing at a
consumed packet's sender. -/
theorem C6_thm :
    (∀ (st : St) (p : Packet), p.size ≠ 0 →
      (readStep st (some p)).lastIp = p.srcIp ∧ (readStep st (some p)).lastPort = p.srcPort) ∧
    (∀ (st : St), st.lastIp ≠ 0 → ∀ m : String,
      sendUDPMessageToLast st m =
        { st with sent := st.sent ++ [(st.lastIp, st.lastPort, m)] }) ∧
    (∀ (st : St) (p : Packet) (r : Nat), p.size ≠ 0 → p.srcIp ≠ 0 →
      ∀ e ∈ (handleUDPMessages st (some p) r).sent.drop st.sent.length,
        e.1 = p.srcIp ∧ e.2.1 = p.srcPort) ∧
    (∀ (t : String) (evs : List (Option Packet)) (st st' : St) (rest : List (Option Packet)),
      waitForCmd t evs st = some (st', rest) →
        ∃ p, some p ∈ evs ∧ p.size ≠ 0 ∧ st'.lastIp = p.srcIp ∧ st'.lastPort = p.srcPort) := by
  refine ⟨?_, ?_, ?_, fun t evs st st' rest h => waitForCmd_endpoint t evs st st' rest h⟩
  · intro st p hs
    rw [readStep_some_ne st hs]
    exact ⟨rfl, rfl⟩
  · intro st h m
    exact sendToLast_of_ne m h
  · intro st p r hs hip e he
    rw [handleUDP_sent_eq st p r hs hip, List.drop_left] at he
    simp only [List.mem_cons, List.not_mem_nil, or_false] at he
    rcases he with rfl | rfl
    · exact ⟨rfl, rfl⟩
    · exact ⟨rfl, rfl⟩

/-- Witness for C6: a packet from `8:6` with unrecognized content
updates the endpoint, and the next send goes there. -/
theorem C6_witness :
    (readStep stIdle (some ⟨8, 6, 4, 4, "????"⟩)).lastIp = 8 ∧
    (readStep stIdle (some ⟨8, 6, 4, 4, "????"⟩)).lastPort = 6 ∧
    sendUDPMessageToLast stRun "x" = { stRun with sent := [(1, 7, "x")] } := by
  refine ⟨(C6_thm.1 stIdle _ (by decide)).1, (C6_thm.1 stIdle _ (by decide)).2, ?_⟩
  exact (C6_thm.2.1 stRun (by decide) "x").trans (by decide)

/-- Claim C7: the bank is exactly 10 profiles of 4 thresholds whose
entries are integers drawn from `[5,15)`, `[15,25)`, `[25,35)`, `[35,45)`
respectively, and no sequence of operations ever changes the bank. -/
theorem C7_thm (r : Nat → Nat) :
    (eventsInit r).length = 10 ∧
    (∀ q ∈ eventsInit r, q.length = 4) ∧
    (∀ i : Nat, i < 10 → ∃ a b c d : ℕ,
      (eventsInit r).getD i [] = [(a : ℚ), (b : ℚ), (c : ℚ), (d : ℚ)] ∧
      5 ≤ a ∧ a < 15 ∧ 15 ≤ b ∧ b < 25 ∧ 25 ≤ c ∧ c < 35 ∧ 35 ≤ d ∧ d < 45) ∧
    (∀ (st : St) (ops : List Op) (st' : St), runOps st ops = some st' → st'.bank = st.bank) := by
  refine ⟨by simp [eventsInit], ?_, ?_, fun st ops st' h => runOps_bank h⟩
  · intro q hq
    simp only [eventsInit, List.mem_map] at hq
    obtain ⟨i, -, hi⟩ := hq
    rw [← hi]
    rfl
  · intro i hi
    exact ⟨5 + r (4 * i) % 10, 15 + r (4 * i + 1) % 10, 25 + r (4 * i + 2) % 10,
           35 + r (4 * i + 3) % 10, eventsInit_getD r hi,
           by omega, by omega, by omega, by omega, by omega, by omega, by omega, by omega⟩

/-- Witness for C7 at the constant draw stream 7 and index 2. -/
theorem C7_witness :
    (eventsInit (fun _ => 7)).length = 10 ∧
    (∃ a b c d : ℕ,
      (eventsInit (fun _ => 7)).getD 2 [] = [(a : ℚ), (b : ℚ), (c : ℚ), (d : ℚ)] ∧
      5 ≤ a ∧ a < 15 ∧ 15 ≤ b ∧ b < 25 ∧ 25 ≤ c ∧ c < 35 ∧ 35 ≤ d ∧ d < 45) :=
  ⟨(C7_thm (fun _ => 7)).1, (C7_thm (fun _ => 7)).2.2.1 2 (by decide)⟩

/-- Claim C8: once the running flag is true, no reachable successor
state ever has it false — no operation (any dispatched command including
Stop, or any sequencer tick) resets it. -/
theorem C8_thm (st : St) (ops : List Op) (st' : St) (h : runOps st ops = some st')
    (hr : st.running = true) : st'.running = true :=
  runOps_running h hr

/-- Witness for C8: a Stop command and a tick leave running true. -/
theorem C8_witness :
    (runOps stRun [Op.udp (some ⟨2, 3, 4, 4, "Stop"⟩) 0, Op.encoder [5] []]).map
      St.running = some true := by
  cases hx : runOps stRun [Op.udp (some ⟨2, 3, 4, 4, "Stop"⟩) 0, Op.encoder [5] []] with
  | none => exact absurd hx (by decide)
  | some st' =>
    rw [Option.map_some', C8_thm stRun _ st' hx rfl]

/-- Claim C9: a sequencer tick with the running flag false is a
complete no-op — same state (no sends, no brake change, same profile and
flag) and no consumed readings or events. -/
theorem C9_thm (st : St) (ds : List ℚ) (evs : List (Option Packet))
    (h : st.running = false) : processEncoderEvents st ds evs = some (st, ds, evs) := by
  unfold processEncoderEvents
  rw [h]
  rfl

/-- Witness for C9 on the idle state. -/
theorem C9_witness : processEncoderEvents stIdle [3] [some ⟨1, 1, 1, 1, "OK"⟩] =
    some (stIdle, [3], [some ⟨1, 1, 1, 1, "OK"⟩]) :=
  C9_thm stIdle [3] [some ⟨1, 1, 1, 1, "OK"⟩] rfl

/-- Claim C10: a packet reported present from which zero bytes are read
still updates the endpoint and still counts as received, and the yielded
message is the (trimmed) residual receive-buffer content left by the
previous packet, not the empty string, since the buffer is neither
cleared nor re-terminated. -/
theorem C10_thm (st : St) (p : Packet) (hs : p.size ≠ 0) (hl : p.len = 0) :
    readIncomingUDP st (some p) =
      ({ st with lastIp := p.srcIp, lastPort := p.srcPort }, some (trimStr st.buffer)) := by
  simp [readIncomingUDP, readStep, readMsg, msgText, hs, hl]

/-- Witness for C10: residual buffer `Hello` is reported as the message
of a zero-length read, and it is not empty. -/
theorem C10_witness :
    readIncomingUDP { stIdle with buffer := "Hello" } (some ⟨3, 4, 7, 0, "IGNORED"⟩) =
      ({ stIdle with buffer := "Hello", lastIp := 3, lastPort := 4 }, some "Hello") ∧
    "Hello" ≠ "" :=
  ⟨(C10_thm { stIdle with buffer := "Hello" } ⟨3, 4, 7, 0, "IGNORED"⟩
      (by decide) rfl).trans (by decide), by decide⟩

theorem brakeLog_sendToLast (a : St) (m : String) :
    (sendUDPMessageToLast a m).brakeLog = a.brakeLog := by
  unfold sendUDPMessageToLast
  split <;> rfl

/-- Claim C1, counterexample: at a running state with profile
`[10,20,30,40]` and distance 12 (which is at least the first threshold),
the tick sends the text `Pain`, not `Pain1` — `Pain1` is never sent. -/
theorem C1_counterexample :
    (12 : ℚ) ≥ stRun.current.getD 0 0 ∧
    (processEncoderEvents stRun [12] []).map (fun x => sentTexts x.1) = some ["Pain"] ∧
    "Pain1" ∉ (["Pain"] : List String) := by
  refine ⟨by decide, by decide, by decide⟩

/-- Claim C1 (amended): on every running tick whose distance reading is
at least the first threshold, the notification text `Pain` (not `Pain1`)
is sent to the last remote endpoint, before anything else the tick
sends; and in the spec's own scenario — profile `[10,20,30,40]`,
readings 5, 12, 22, 32, 42, HighDamp waits acknowledged with `OK` and
the LowDamp wait with `OK1` — the first occurrences of the four
notifications are ordered `Pain`, `Pain2`, `HighDamp`, `LowDamp`
(with `Pain`/`Pain2`/`HighDamp` re-firing on later ticks). -/
theorem C1_thm :
    (∀ (st : St) (dist : ℚ) (ds : List ℚ) (evs : List (Option Packet)) (st' : St)
      (ds' : List ℚ) (evs' : List (Option Packet)),
      st.running = true → st.lastIp ≠ 0 → dist ≥ st.current.getD 0 0 →
      processEncoderEvents st (dist :: ds) evs = some (st', ds', evs') →
      ∃ rest, st'.sent = st.sent ++ (st.lastIp, st.lastPort, "Pain") :: rest) ∧
    (runOps (initialState (fun _ => 5)) scenarioOps).map sentTexts =
      some ["Start", "ACK: Start", "Pain", "Pain", "Pain2", "Pain", "Pain2", "HighDamp",
            "Pain", "Pain2", "HighDamp", "LowDamp"] := by
  constructor
  · intro st dist ds evs st' ds' evs' hr hip h0 h
    rw [processEncoderEvents_running hr dist ds evs] at h
    cases h3 : stage3 dist (stage12 dist st) evs with
    | none => rw [h3] at h; exact absurd h (by simp)
    | some x =>
      obtain ⟨st1, evs1⟩ := x
      rw [h3] at h
      replace h : stage4 dist st1 ds evs1 = some (st', ds', evs') := h
      obtain ⟨l4, hs4⟩ := sent_stage4 h
      obtain ⟨l3, hs3⟩ := sent_stage3 h3
      obtain ⟨l12, hs12⟩ := stage12_pain h0 hip
      refine ⟨l12 ++ (l3 ++ l4), ?_⟩
      rw [hs4, hs3, hs12]
      simp [List.append_assoc]
  · decide

/-- Witness for C1 at the running state with profile `[10,20,30,40]`
and distance reading 12. -/
theorem C1_witness :
    ∃ rest, ({ stRun with sent := [(1, 7, "Pain")] } : St).sent =
      stRun.sent ++ (stRun.lastIp, stRun.lastPort, "Pain") :: rest :=
  C1_thm.1 stRun 12 [] [] { stRun with sent := [(1, 7, "Pain")] } [] [] rfl (by decide)
    (by decide) (by decide)

/-- Claim C4: on a running tick with distance at least threshold `t3`
(and, to isolate the LowDamp stage, below the earlier thresholds) the
sequencer sends `LowDamp`, sets the brake to Weak and waits for `OK1`
or `Continue`. An `OK1` reply releases the brake. A `Continue` reply
records a fresh distance reading and blocks until a reading at least
0.5 above it arrives — with no such reading the tick never returns —
then sends `Keep`, waits for `OK2` and releases the brake. -/
theorem C4_thm :
    (∀ (st : St) (dist : ℚ) (ds : List ℚ) (ip port sz ln : ℕ),
      st.running = true → st.lastIp ≠ 0 → sz ≠ 0 → 0 < ln →
      ¬ dist ≥ st.current.getD 0 0 → ¬ dist ≥ st.current.getD 1 0 →
      ¬ dist ≥ st.current.getD 2 0 → dist ≥ st.current.getD 3 0 →
      (processEncoderEvents st (dist :: ds) [some ⟨ip, port, sz, ln, "OK1"⟩]).map
          (fun x => (x.1.brake, x.1.brakeLog, sentTexts x.1, x.2.1, x.2.2)) =
        some (Brake.released, st.brakeLog ++ [Brake.weak, Brake.released],
              sentTexts st ++ ["LowDamp"], ds, [])) ∧
    (∀ (st : St) (dist start dBig : ℚ) (ds1 rest : List ℚ),
      st.running = true → st.lastIp ≠ 0 →
      ¬ dist ≥ st.current.getD 0 0 → ¬ dist ≥ st.current.getD 1 0 →
      ¬ dist ≥ st.current.getD 2 0 → dist ≥ st.current.getD 3 0 →
      (∀ x ∈ ds1, x < start + 1/2) → ¬ dBig < start + 1/2 →
      (processEncoderEvents st (dist :: start :: (ds1 ++ dBig :: rest))
          [some ⟨2, 3, 8, 8, "Continue"⟩, some ⟨4, 5, 3, 3, "OK2"⟩]).map
          (fun x => (x.1.brake, x.1.brakeLog, sentTexts x.1, x.2.1, x.2.2)) =
        some (Brake.released, st.brakeLog ++ [Brake.weak, Brake.released],
              sentTexts st ++ ["LowDamp", "Keep"], rest, [])) ∧
    (∀ (st : St) (dist start : ℚ) (ds1 : List ℚ),
      st.running = true →
      ¬ dist ≥ st.current.getD 0 0 → ¬ dist ≥ st.current.getD 1 0 →
      ¬ dist ≥ st.current.getD 2 0 → dist ≥ st.current.getD 3 0 →
      (∀ x ∈ ds1, x < start + 1/2) →
      processEncoderEvents st (dist :: start :: ds1) [some ⟨2, 3, 8, 8, "Continue"⟩] = none) := by
  refine ⟨?_, ?_, ?_⟩
  · intro st dist ds ip port sz ln hr hip hsz hln h0 h1 h2 h3
    rw [processEncoderEvents_running hr dist ds _, stage12_skip h0 h1, stage3_skip _ h2]
    have hm : readMsg (servoBrakeWeak (sendUDPMessageToLast st "LowDamp"))
        (some ⟨ip, port, sz, ln, "OK1"⟩) = some "OK1" := by
      rw [readMsg_some_ne _ hsz]
      unfold msgText
      rw [if_pos hln]
      rw [show trimStr "OK1" = "OK1" from by decide]
    have hA := waitAny_one ["OK1", "Continue"]
      (servoBrakeWeak (sendUDPMessageToLast st "LowDamp"))
      (some ⟨ip, port, sz, ln, "OK1"⟩) "OK1" hm (by decide)
    simp only [stage4, if_pos h3, hA]
    simp [servoBrakeRelease, servoBrakeWeak, sentTexts, sendToLast_of_ne "LowDamp" hip,
          brakeLog_readStep, sent_readStep, brakeLog_sendToLast]
  · intro st dist start dBig ds1 rest hr hip h0 h1 h2 h3 hsmall hbig
    rw [processEncoderEvents_running hr _ _ _, stage12_skip h0 h1, stage3_skip _ h2]
    have hm : readMsg (servoBrakeWeak (sendUDPMessageToLast st "LowDamp"))
        (some ⟨2, 3, 8, 8, "Continue"⟩) = some "Continue" := by
      rw [readMsg_some_ne _ (by decide)]
      unfold msgText
      rw [if_pos (by decide : (0:ℕ) < 8)]
      rw [show trimStr "Continue" = "Continue" from by decide]
    have hA : waitForCmdAny ["OK1", "Continue"]
        [some ⟨2, 3, 8, 8, "Continue"⟩, some ⟨4, 5, 3, 3, "OK2"⟩]
        (servoBrakeWeak (sendUDPMessageToLast st "LowDamp")) =
        some (readStep (servoBrakeWeak (sendUDPMessageToLast st "LowDamp"))
                (some ⟨2, 3, 8, 8, "Continue"⟩), "Continue",
              [some ⟨4, 5, 3, 3, "OK2"⟩]) := by
      simp [waitForCmdAny, hm]
    have hP : waitShortPull (start :: (ds1 ++ dBig :: rest)) = some rest := by
      simp only [waitShortPull]
      exact waitShortPullLoop_skip hsmall hbig
    have hm2 : readMsg (sendUDPMessageToLast
        (readStep (servoBrakeWeak (sendUDPMessageToLast st "LowDamp"))
          (some ⟨2, 3, 8, 8, "Continue"⟩)) "Keep") (some ⟨4, 5, 3, 3, "OK2"⟩) =
        some "OK2" := by
      rw [readMsg_some_ne _ (by decide)]
      unfold msgText
      rw [if_pos (by decide : (0:ℕ) < 3)]
      rw [show trimStr "OK2" = "OK2" from by decide]
    have hW := waitCmd_one "OK2" _ (some ⟨4, 5, 3, 3, "OK2"⟩) hm2
    simp only [stage4, if_pos h3, hA, hP, hW]
    simp [sendUDPMessageToLast, servoBrakeRelease, servoBrakeWeak, sentTexts,
          brakeLog_readStep, sent_readStep, readStep_some_ne, hip]
  · intro st dist start ds1 hr h0 h1 h2 h3 hsmall
    rw [processEncoderEvents_running hr _ _ _, stage12_skip h0 h1, stage3_skip _ h2]
    have hm : readMsg (servoBrakeWeak (sendUDPMessageToLast st "LowDamp"))
        (some ⟨2, 3, 8, 8, "Continue"⟩) = some "Continue" := by
      rw [readMsg_some_ne _ (by decide)]
      unfold msgText
      rw [if_pos (by decide : (0:ℕ) < 8)]
      rw [show trimStr "Continue" = "Continue" from by decide]
    have hA : waitForCmdAny ["OK1", "Continue"] [some ⟨2, 3, 8, 8, "Continue"⟩]
        (servoBrakeWeak (sendUDPMessageToLast st "LowDamp")) =
        some (readStep (servoBrakeWeak (sendUDPMessageToLast st "LowDamp"))
                (some ⟨2, 3, 8, 8, "Continue"⟩), "Continue", []) := by
      simp [waitForCmdAny, hm]
    have hP : waitShortPull (start :: ds1) = none := by
      simp only [waitShortPull]
      exact waitShortPullLoop_none hsmall
    simp only [stage4, if_pos h3, hA, hP]
    simp

/-- Witness for C4: profile `[10,20,30,5]`, distance 7, an `OK1` reply
releases the brake after a `LowDamp`; and with a `Continue` reply and
no subsequent 0.5 increase the tick blocks forever. -/
theorem C4_witness :
    (processEncoderEvents stLow [7] [some ⟨2, 3, 1, 3, "OK1"⟩]).map
        (fun x => (x.1.brake, x.1.brakeLog, sentTexts x.1, x.2.1, x.2.2)) =
      some (Brake.released, [Brake.weak, Brake.released], ["LowDamp"], [], []) ∧
    processEncoderEvents stLow [7, 1] [some ⟨2, 3, 8, 8, "Continue"⟩] = none :=
  ⟨(C4_thm.1 stLow 7 [] 2 3 1 3 rfl (by decide)
      (by decide) (by decide) (by decide) (by decide) (by decide) (by decide)).trans
      (by simp [stLow, sentTexts]),
   C4_thm.2.2 stLow 7 1 [] rfl
     (by decide) (by decide) (by decide) (by decide) (by simp)⟩
